import Mathlib

/-!
Shallow embedding of the MangaHub real-time fan-out core: the TCP sync
server (internal/tcp/server.go), the UDP notification server
(internal/udp/server.go) and the websocket chat hub, together with
theorems settling the frozen claims about them.

Go maps decoded from JSON are modelled as association lists (later binding
wins, as in Go's sequential decoding); registries are association lists
keyed by the registry key; the websocket hub's room map is modelled as a
function from room names, matching Go map lookup/assign/delete semantics.
-/

/-- A JSON value as produced by Go's encoding/json decoder. -/
inductive JValue where
  | null
  | bool (b : Bool)
  | num (n : Int)
  | str (s : String)
  | arr (elems : List JValue)
  | obj (fields : List (String × JValue))

/-- Lookup in a decoded JSON object (`map[string]interface{}`): Go builds the
map by assigning each key in order, so a later duplicate key wins. -/
def jlookup (fields : List (String × JValue)) (k : String) : Option JValue :=
  fields.foldl (fun acc p => if p.1 = k then some p.2 else acc) none

/-- The Go type assertion `msg[k].(string)`: yields the string when present,
fails when the key is absent or its value is not a string. -/
def getString (fields : List (String × JValue)) (k : String) : Option String :=
  match jlookup fields k with
  | some (JValue.str s) => some s
  | _ => none

/-- Lookup of a field in a marshalled flat JSON frame. -/
def fieldValue (frame : List (String × String)) (k : String) : Option String :=
  frame.foldl (fun acc p => if p.1 = k then some p.2 else acc) none

/-- An observable event of a fan-out operation: taking or dropping the
registry's read lock, or writing one message to the network. -/
inductive NetEvent where
  | acquireRead
  | releaseRead
  | netWrite (dest : String)
deriving DecidableEq

/-- Destinations of the network writes performed while the registry lock is
held (`d` counts the currently held read acquisitions). -/
def writesUnderLock : List NetEvent → Nat → List String
  | [], _ => []
  | NetEvent.acquireRead :: rest, d => writesUnderLock rest (d + 1)
  | NetEvent.releaseRead :: rest, d => writesUnderLock rest (d - 1)
  | NetEvent.netWrite dest :: rest, d =>
      if 0 < d then dest :: writesUnderLock rest d else writesUnderLock rest d

namespace Tcp

/-- internal/tcp/server.go `Client`: the connection handle and the
authenticated user id. -/
structure Client where
  conn : String
  userID : String
deriving DecidableEq

/-- pkg/models `ProgressUpdate`. -/
structure ProgressUpdate where
  userID : String
  mangaID : String
  chapter : Int
  timestamp : Int
deriving DecidableEq

/-- The wire frame marshalled by `broadcastUpdate`. -/
structure ProgressFrame where
  type : String
  user_id : String
  manga_id : String
  chapter : Int
  timestamp : Int
deriving DecidableEq

/-- The map marshalled in `broadcastUpdate`: type "progress_update" plus the
event's user, manga, chapter and timestamp. -/
def renderProgressUpdate (u : ProgressUpdate) : ProgressFrame :=
  ⟨"progress_update", u.userID, u.mangaID, u.chapter, u.timestamp⟩

/-- `broadcastUpdate`: the (destination, frame) writes attempted — one write
of the rendered frame to every registered client whose UserID equals the
update's UserID. -/
def broadcastUpdate (clients : List (String × Client)) (u : ProgressUpdate) :
    List (String × ProgressFrame) :=
  (clients.filter (fun p => p.2.userID = u.userID)).map
    (fun p => (p.2.conn, renderProgressUpdate u))

/-- The lock/write event trace of `broadcastUpdate`: `s.mutex.RLock()` with
`defer s.mutex.RUnlock()`, then `client.Conn.Write(data)` for each matching
client inside the loop, the unlock only running at return. -/
def broadcastUpdateTrace (clients : List (String × Client)) (u : ProgressUpdate) :
    List NetEvent :=
  NetEvent.acquireRead ::
    ((clients.filter (fun p => p.2.userID = u.userID)).map
      (fun p => NetEvent.netWrite p.2.conn))
    ++ [NetEvent.releaseRead]

/-- One step of Go's `strings.EqualFold` against the key "user_id": Unicode
simple case folding restricted to the fold orbits of the runes of
"user_id" — upper-case ASCII folds to lower case and the long s U+017F
folds to s (the only non-ASCII rune in those orbits). -/
def foldChar (c : Char) : Char :=
  if c = 'ſ' then 's' else c.toLower

/-- Whether an object key matches the `json:"user_id"` struct tag:
encoding/json accepts an exact or case-insensitive (`strings.EqualFold`)
match of the field name. -/
def matchesUserIdKey (k : String) : Bool :=
  (⟨k.data.map foldChar⟩ : String) = "user_id"

/-- Decoding one field into `struct{UserID string}` as Go's json does:
fields are applied in order, a key matching `user_id` exactly or
case-insensitively assigns the field (a later one overwrites an earlier
one), a matching value that is neither a string nor null is an unmarshal
error, and null leaves the field untouched. -/
def decodeAuthField (acc : Option String) (field : String × JValue) : Option String :=
  match acc with
  | none => none
  | some cur =>
    if matchesUserIdKey field.1 then
      match field.2 with
      | JValue.str s => some s
      | JValue.null => some cur
      | _ => none
    else some cur

/-- `json.Unmarshal(authData, &authMsg)` with `authMsg` a
`struct{ UserID string }`: null is a no-op, an object assigns its
(exactly or case-insensitively) matching fields over the zero value "",
and any other top-level value is an error. -/
def decodeAuthUserID : JValue → Option String
  | JValue.null => some ""
  | JValue.obj fields => fields.foldl decodeAuthField (some "")
  | _ => none

/-- The confirmation map marshalled after registration in
`handleConnection`: status and message only. -/
def connectConfirmation : List (String × String) :=
  [("status", "connected"),
   ("message", "Successfully connected to TCP sync server")]

/-- Outcome of the handshake phase of `handleConnection`. -/
inductive HandshakeResult where
  | closed
  | registered (clientID : String) (userID : String)
      (confirmation : List (String × String))

def HandshakeResult.isClosed : HandshakeResult → Bool
  | HandshakeResult.closed => true
  | HandshakeResult.registered _ _ _ => false

def HandshakeResult.regUserID : HandshakeResult → Option String
  | HandshakeResult.closed => none
  | HandshakeResult.registered _ uid _ => some uid

def HandshakeResult.confFrame : HandshakeResult → Option (List (String × String))
  | HandshakeResult.closed => none
  | HandshakeResult.registered _ _ f => some f

/-- The handshake phase of `handleConnection`. The input is the result of
`reader.ReadBytes` followed by JSON parsing: `none` is a read error,
`some none` is bytes that are not valid JSON, `some (some v)` is the parsed
value. On a decode error the connection is closed without registering;
otherwise the client is registered under key `userID_nanos` and the
confirmation frame is written back. -/
def handleConnectionHandshake (input : Option (Option JValue)) (nowNanos : Nat) :
    HandshakeResult :=
  match input with
  | none => HandshakeResult.closed
  | some none => HandshakeResult.closed
  | some (some v) =>
    match decodeAuthUserID v with
    | none => HandshakeResult.closed
    | some uid =>
        HandshakeResult.registered (uid ++ "_" ++ toString nowNanos) uid
          connectConfirmation

/-- Read deadline in force for the handshake read in `handleConnection`:
no `SetReadDeadline` call precedes `reader.ReadBytes` for the auth
message, so the read carries no deadline. -/
def handshakeReadDeadline : Option Nat := none

/-- Read deadline (seconds) set before each read of the keep-alive loop:
`conn.SetReadDeadline(time.Now().Add(5 * time.Minute))`. -/
def loopReadDeadline : Option Nat := some 300

end Tcp

namespace Udp

/-- internal/udp/server.go `UDPClient`: address, user id and last-seen
time (seconds). The struct has no preferences field. -/
structure UDPClient where
  addr : String
  userID : String
  lastSeen : Nat
deriving DecidableEq

/-- pkg/models `Notification`. -/
structure Notification where
  type : String
  mangaID : String
  message : String
  timestamp : Int
deriving DecidableEq

/-- Go map assignment `s.clients[k] = c`: replace an existing binding for
the key, else add one. -/
def putClient (clients : List (String × UDPClient)) (k : String) (c : UDPClient) :
    List (String × UDPClient) :=
  if clients.any (fun p => p.1 = k) then
    clients.map (fun p => if p.1 = k then (k, c) else p)
  else clients ++ [(k, c)]

/-- `handleRegister`: requires a string `user_id`; stores the sender's
address as key with the user id and the current time. Nothing else from
the message — in particular no preferences — is stored. -/
def handleRegister (msg : List (String × JValue)) (addr : String) (now : Nat)
    (clients : List (String × UDPClient)) : List (String × UDPClient) :=
  match getString msg "user_id" with
  | none => clients
  | some uid => putClient clients addr ⟨addr, uid, now⟩

/-- `handlePing`: refresh LastSeen for the sender's address when it is
registered; leave the registry unchanged otherwise. -/
def handlePing (now : Nat) (addr : String) (clients : List (String × UDPClient)) :
    List (String × UDPClient) :=
  clients.map (fun p => if p.1 = addr then (p.1, { p.2 with lastSeen := now }) else p)

/-- 5 * time.Minute, in seconds: the liveness window of the sweep. -/
def livenessWindow : Nat := 300

/-- 1 * time.Minute, in seconds: the period of the cleanup ticker. -/
def sweepInterval : Nat := 60

/-- One sweep of `cleanupInactiveClients`: delete every client with
`now.Sub(client.LastSeen) > 5*time.Minute`; i.e. keep exactly those with
`now - lastSeen ≤ livenessWindow`. -/
def cleanupInactiveClients (now : Nat) (clients : List (String × UDPClient)) :
    List (String × UDPClient) :=
  clients.filter (fun p => now - p.2.lastSeen ≤ livenessWindow)

/-- `SendNotification`: the (address, payload) writes attempted — the
marshalled notification is written to every registered client,
unconditionally. -/
def SendNotification (clients : List (String × UDPClient)) (n : Notification) :
    List (String × Notification) :=
  clients.map (fun p => (p.2.addr, n))

/-- `SendNotificationToUser`: one write to every registered client whose
UserID matches. -/
def SendNotificationToUser (clients : List (String × UDPClient)) (userID : String)
    (n : Notification) : List (String × Notification) :=
  (clients.filter (fun p => p.2.userID = userID)).map (fun p => (p.2.addr, n))

/-- Lock/write trace of `SendNotification`: RLock with deferred RUnlock,
`WriteToUDP` for every client inside the loop. -/
def sendNotificationTrace (clients : List (String × UDPClient)) : List NetEvent :=
  NetEvent.acquireRead ::
    (clients.map (fun p => NetEvent.netWrite p.2.addr)) ++ [NetEvent.releaseRead]

/-- Lock/write trace of `SendNotificationToUser`. -/
def sendNotificationToUserTrace (clients : List (String × UDPClient))
    (userID : String) : List NetEvent :=
  NetEvent.acquireRead ::
    ((clients.filter (fun p => p.2.userID = userID)).map
      (fun p => NetEvent.netWrite p.2.addr))
    ++ [NetEvent.releaseRead]

/-- An event touching the UDP registry: a ping datagram from some address
at some time, or a run of the cleanup sweep. -/
inductive UdpEvent where
  | ping (addr : String) (t : Nat)
  | sweep (t : Nat)

/-- Run a sequence of pings and sweeps against the registry. -/
def runEvents (clients : List (String × UDPClient)) : List UdpEvent →
    List (String × UDPClient)
  | [] => clients
  | UdpEvent.ping a t :: rest => runEvents (handlePing t a clients) rest
  | UdpEvent.sweep t :: rest => runEvents (cleanupInactiveClients t clients) rest

/-- `coveredAt key last evs`: every sweep in `evs` happens within the
liveness window of the key's latest refresh (`last` being its current
LastSeen value). This is "pings at least once per window". -/
def coveredAt (key : String) (last : Nat) : List UdpEvent → Bool
  | [] => true
  | UdpEvent.ping a t :: rest =>
      if a = key then coveredAt key t rest else coveredAt key last rest
  | UdpEvent.sweep t :: rest =>
      decide (t - last ≤ livenessWindow) && coveredAt key last rest

end Udp

namespace Ws

/-- Websocket hub `Message`: the five wire fields. -/
structure Message where
  type : String
  room : String
  username : String
  text : String
  time : String
deriving DecidableEq

/-- A frame queued on a client's Send channel: either one marshalled chat
message or the history frame sent once after join. -/
inductive Frame where
  | chat (m : Message)
  | historyFrame (ms : List Message)
deriving DecidableEq

/-- Capacity of a client's Send channel (`make(chan []byte, 256)`). -/
def sendChanCapacity : Nat := 256

/-- Websocket hub `Client`. `cid` models Go pointer identity; `sendQueue`
models the buffered Send channel. -/
structure Client where
  cid : Nat
  username : String
  room : String
  sendQueue : List Frame
deriving DecidableEq

/-- Websocket hub `Room`: members and bounded history. -/
structure Room where
  name : String
  clients : List Client
  history : List Message
deriving DecidableEq

/-- Websocket `Hub`: the map from room names to rooms. -/
structure Hub where
  rooms : String → Option Room

/-- Go map assignment `h.rooms[name] = r`. -/
def setRoom (hub : Hub) (name : String) (r : Room) : Hub :=
  ⟨fun n => if n = name then some r else hub.rooms n⟩

/-- Go map deletion `delete(h.rooms, name)`. -/
def deleteRoom (hub : Hub) (name : String) : Hub :=
  ⟨fun n => if n = name then none else hub.rooms n⟩

/-- The non-blocking send `select { case client.Send <- data: default: }`
in `broadcastToRoom`: enqueue when the channel has room, else fail. -/
def tryEnqueue (c : Client) (f : Frame) : Option Client :=
  if c.sendQueue.length < sendChanCapacity then
    some { c with sendQueue := c.sendQueue ++ [f] }
  else none

/-- History append of `broadcastToRoom`: append the message and drop the
oldest entry when the length exceeds 100 (`History = History[1:]`). -/
def pushHistory (h : List Message) (m : Message) : List Message :=
  let h2 := h ++ [m]
  if h2.length > 100 then h2.tail else h2

/-- `broadcastToRoom`: on a missing room do nothing; otherwise append the
message to the room history (bounded at 100), then attempt a non-blocking
enqueue of the marshalled message to every member, removing (and closing)
any member whose channel is full. -/
def broadcastToRoom (hub : Hub) (roomName : String) (msg : Message) : Hub :=
  match hub.rooms roomName with
  | none => hub
  | some room =>
    let hist := pushHistory room.history msg
    let newClients := room.clients.filterMap (fun c => tryEnqueue c (Frame.chat msg))
    setRoom hub roomName { room with history := hist, clients := newClients }

/-- `sendHistoryToClient`: snapshot the room history; if empty send
nothing, else non-blockingly enqueue one history frame to the given
member (dropped silently when the channel is full). -/
def sendHistoryToClient (room : Room) (cid : Nat) : Room :=
  if room.history = [] then room
  else
    { room with
      clients := room.clients.map (fun c =>
        if c.cid = cid then
          match tryEnqueue c (Frame.historyFrame room.history) with
          | some c2 => c2
          | none => c
        else c) }

/-- The join notice broadcast at the end of `addClientToRoom`. -/
def systemJoinMsg (c : Client) (now : String) : Message :=
  ⟨"system", c.room, c.username, c.username ++ " joined the room", now⟩

/-- The leave notice broadcast in `removeClientFromRoom`. -/
def systemLeaveMsg (c : Client) (now : String) : Message :=
  ⟨"system", c.room, c.username, c.username ++ " left the room", now⟩

/-- The room created on first join: empty member set, empty history. -/
def emptyRoom (name : String) : Room := ⟨name, [], []⟩

/-- `addClientToRoom`: get or lazily create the room, insert the member,
replay retained history to the new member only, then broadcast the join
notice to the room. -/
def addClientToRoom (hub : Hub) (c : Client) (now : String) : Hub :=
  let room := match hub.rooms c.room with
    | some r => r
    | none => emptyRoom c.room
  let room := { room with clients := room.clients ++ [c] }
  let room := sendHistoryToClient room c.cid
  let hub := setRoom hub c.room room
  broadcastToRoom hub c.room (systemJoinMsg c now)

/-- `removeClientFromRoom`: on a missing room do nothing; otherwise remove
the member (closing its channel), broadcast the leave notice, and if the
membership became empty delete the room from the hub. -/
def removeClientFromRoom (hub : Hub) (c : Client) (now : String) : Hub :=
  match hub.rooms c.room with
  | none => hub
  | some room =>
    let newClients := room.clients.filter (fun x => x.cid ≠ c.cid)
    let clientCount := newClients.length
    let hub1 := setRoom hub c.room { room with clients := newClients }
    let hub2 := broadcastToRoom hub1 c.room (systemLeaveMsg c now)
    if clientCount = 0 then deleteRoom hub2 c.room else hub2

/-- The server-side stamping in `readPump`: after decoding the inbound
payload, its Username, Room, Type and Time are overwritten with the
member's join-time identity, the room, "chat" and the server clock; only
Text survives from the client payload. -/
def stampMessage (c : Client) (now : String) (m : Message) : Message :=
  { m with username := c.username, room := c.room, type := "chat", time := now }

/-- One iteration of `readPump` on a well-formed payload: stamp it and
hand it to the room broadcast. -/
def readPumpStep (hub : Hub) (c : Client) (now : String) (m : Message) : Hub :=
  broadcastToRoom hub c.room (stampMessage c now m)

/-- A sequence of broadcasts to one room. -/
def broadcastMany (hub : Hub) (roomName : String) (msgs : List Message) : Hub :=
  msgs.foldl (fun h m => broadcastToRoom h roomName m) hub

/-- The most recent `n` entries of a list, oldest first. -/
def lastN (n : Nat) (l : List Message) : List Message :=
  l.drop (l.length - n)

end Ws

section Lemmas

lemma writesUnderLock_writes {A : Type} (f : A → String) (l : List A) :
    writesUnderLock ((l.map fun a => NetEvent.netWrite (f a)) ++ [NetEvent.releaseRead]) 1
      = l.map f := by
  induction l with
  | nil => rfl
  | cons x xs ih => simpa [writesUnderLock] using ih

end Lemmas

/-- Claim C1 counterexample: in the TCP progress broadcast, with one
matching registered client, the network write happens while the registry
read lock is held — the claim that no network write is ever performed
while holding the registry lock is false on the code. -/
theorem c1_write_under_lock_cex :
    writesUnderLock
        (Tcp.broadcastUpdateTrace [("u1_1", ⟨"conn1", "u1"⟩)] ⟨"u1", "m1", 5, 0⟩) 0
      ≠ [] := by decide

/-- Claim C1 (amended): the fan-out operations do not snapshot and release
before I/O; each acquires the registry read lock, performs every one of
its network writes while holding it, and releases it only afterwards —
every write of each operation appears among the writes made under the
lock. -/
theorem c1_fanout_writes_hold_lock (clients : List (String × Tcp.Client))
    (uclients : List (String × Udp.UDPClient)) (u : Tcp.ProgressUpdate)
    (uid : String) (n : Udp.Notification) :
    writesUnderLock (Tcp.broadcastUpdateTrace clients u) 0
        = (Tcp.broadcastUpdate clients u).map Prod.fst
    ∧ writesUnderLock (Udp.sendNotificationTrace uclients) 0
        = (Udp.SendNotification uclients n).map Prod.fst
    ∧ writesUnderLock (Udp.sendNotificationToUserTrace uclients uid) 0
        = (Udp.SendNotificationToUser uclients uid n).map Prod.fst := by
  refine ⟨?_, ?_, ?_⟩ <;>
  · simp only [Tcp.broadcastUpdateTrace, Tcp.broadcastUpdate,
      Udp.sendNotificationTrace, Udp.SendNotification,
      Udp.sendNotificationToUserTrace, Udp.SendNotificationToUser,
      writesUnderLock, List.append_eq, Nat.zero_add]
    rw [writesUnderLock_writes]
    simp [Function.comp]

/-- The UDP registry after a single register datagram whose preferences
explicitly opt out of chapter_releases. -/
def optOutRegistry : List (String × Udp.UDPClient) :=
  Udp.handleRegister
    [("type", JValue.str "register"), ("user_id", JValue.str "u1"),
     ("preferences", JValue.obj [("chapter_releases", JValue.bool false)])]
    "1.2.3.4:9" 0 []

def chapterNotification : Udp.Notification :=
  ⟨"chapter_release", "m1", "Chapter 5 is now available", 0⟩

/-- Claim C2 (code evaluated at the failing input): registering with
chapter_releases=false stores only address, user id and last-seen — the
supplied preferences are discarded — and the broadcast send still writes
the notification to that endpoint's address. -/
theorem c2_preference_ignored :
    optOutRegistry = [("1.2.3.4:9", ⟨"1.2.3.4:9", "u1", 0⟩)]
    ∧ Udp.SendNotification optOutRegistry chapterNotification
        = [("1.2.3.4:9", chapterNotification)] := ⟨rfl, rfl⟩

/-- Claim C3 (code evaluated at the failing input): a successful handshake
replies with the confirmation frame, whose status is "connected" but
which contains no client_id field at all. -/
theorem c3_confirmation_lacks_client_id :
    (Tcp.handleConnectionHandshake
        (some (some (JValue.obj [("user_id", JValue.str "u1")]))) 42).confFrame
      = some Tcp.connectConfirmation
    ∧ fieldValue Tcp.connectConfirmation "status" = some "connected"
    ∧ fieldValue Tcp.connectConfirmation "client_id" = none := ⟨rfl, rfl, rfl⟩

/-- Claim C4 (code evaluated at the failing input): the handshake read in
handleConnection carries no deadline at all (a silent client blocks the
handler forever), while only the post-registration loop reads carry a
deadline — of 5 minutes, not 30 seconds. -/
theorem c4_handshake_read_unbounded :
    Tcp.handshakeReadDeadline = none
    ∧ Tcp.handshakeReadDeadline ≠ some 30
    ∧ Tcp.loopReadDeadline = some 300 := ⟨rfl, by decide, rfl⟩

/-- Claim C5: the TCP dispatcher writes the rendered progress_update frame
(carrying the event's user, manga, chapter and timestamp) to a destination
exactly when some registered client with that connection has the event's
user id; clients of other accounts receive nothing. -/
theorem c5_dispatch_matches_account (clients : List (String × Tcp.Client))
    (u : Tcp.ProgressUpdate) (d : String) (f : Tcp.ProgressFrame) :
    ((d, f) ∈ Tcp.broadcastUpdate clients u ↔
        f = Tcp.renderProgressUpdate u ∧
          ∃ k c, (k, c) ∈ clients ∧ c.userID = u.userID ∧ d = c.conn)
    ∧ Tcp.renderProgressUpdate u
        = ⟨"progress_update", u.userID, u.mangaID, u.chapter, u.timestamp⟩ := by
  constructor
  · simp only [Tcp.broadcastUpdate, List.mem_map, List.mem_filter,
      decide_eq_true_eq, Prod.mk.injEq]
    constructor
    · rintro ⟨⟨k, c⟩, ⟨hm, hu⟩, hc, hf⟩
      exact ⟨hf.symm, k, c, hm, hu, hc.symm⟩
    · rintro ⟨hf, k, c, hm, hu, hd⟩
      exact ⟨⟨k, c⟩, ⟨hm, hu⟩, hd.symm, hf.symm⟩
  · rfl

/-- Claim C5 witness: a concrete two-client registry where the matching
client receives the rendered frame. -/
theorem c5_dispatch_witness :
    ("s1", Tcp.renderProgressUpdate ⟨"u1", "m1", 5, 9⟩)
        ∈ Tcp.broadcastUpdate
            [("u1_7", ⟨"s1", "u1"⟩), ("u2_8", ⟨"s2", "u2"⟩)] ⟨"u1", "m1", 5, 9⟩ := by
  exact (c5_dispatch_matches_account
      [("u1_7", ⟨"s1", "u1"⟩), ("u2_8", ⟨"s2", "u2"⟩)] ⟨"u1", "m1", 5, 9⟩ "s1"
      (Tcp.renderProgressUpdate ⟨"u1", "m1", 5, 9⟩)).1.mpr
    ⟨rfl, "u1_7", ⟨"s1", "u1"⟩, by decide, rfl, rfl⟩

section UdpLemmas

lemma mem_handlePing_self {clients : List (String × Udp.UDPClient)}
    {k : String} {c : Udp.UDPClient} (now : Nat) (h : (k, c) ∈ clients) :
    (k, { c with lastSeen := now }) ∈ Udp.handlePing now k clients := by
  have := List.mem_map_of_mem
    (fun p : String × Udp.UDPClient =>
      if p.1 = k then (p.1, { p.2 with lastSeen := now }) else p) h
  simpa [Udp.handlePing] using this

lemma mem_handlePing_other {clients : List (String × Udp.UDPClient)}
    {k a : String} {c : Udp.UDPClient} (now : Nat) (hk : k ≠ a)
    (h : (k, c) ∈ clients) : (k, c) ∈ Udp.handlePing now a clients := by
  have := List.mem_map_of_mem
    (fun p : String × Udp.UDPClient =>
      if p.1 = a then (p.1, { p.2 with lastSeen := now }) else p) h
  simpa [Udp.handlePing, hk] using this

lemma mem_cleanup_iff {clients : List (String × Udp.UDPClient)}
    {k : String} {c : Udp.UDPClient} (now : Nat) :
    (k, c) ∈ Udp.cleanupInactiveClients now clients ↔
      (k, c) ∈ clients ∧ now - c.lastSeen ≤ Udp.livenessWindow := by
  simp [Udp.cleanupInactiveClients, List.mem_filter]

lemma covered_client_survives (evs : List Udp.UdpEvent) :
    ∀ (clients : List (String × Udp.UDPClient)) (k : String) (c : Udp.UDPClient),
      (k, c) ∈ clients → Udp.coveredAt k c.lastSeen evs = true →
      ∃ c', (k, c') ∈ Udp.runEvents clients evs
        ∧ c'.userID = c.userID ∧ c'.addr = c.addr := by
  induction evs with
  | nil =>
    intro clients k c hm _
    exact ⟨c, hm, rfl, rfl⟩
  | cons e rest ih =>
    intro clients k c hm hcov
    cases e with
    | ping a t =>
      by_cases hak : a = k
      · subst hak
        rw [Udp.coveredAt, if_pos rfl] at hcov
        obtain ⟨c', hc', hu, ha⟩ :=
          ih (Udp.handlePing t a clients) a { c with lastSeen := t }
            (mem_handlePing_self t hm) hcov
        exact ⟨c', hc', hu, ha⟩
      · rw [Udp.coveredAt, if_neg hak] at hcov
        exact ih _ k c (mem_handlePing_other t (fun hh => hak hh.symm) hm) hcov
    | sweep t =>
      rw [Udp.coveredAt, Bool.and_eq_true, decide_eq_true_eq] at hcov
      exact ih _ k c ((mem_cleanup_iff t).mpr ⟨hm, hcov.1⟩) hcov.2

end UdpLemmas

/-- Claim C6: the sweep runs on a 60-second ticker with a 5-minute window;
one sweep at time now keeps a registered endpoint exactly when its
lastSeen lies within the window; a ping refreshes the sender's lastSeen
to now; and an endpoint that pings at least once per window (every sweep
falls within the window of its latest refresh) survives any sequence of
pings and sweeps. -/
theorem c6_liveness_sweep :
    Udp.sweepInterval = 60 ∧ Udp.livenessWindow = 300
    ∧ (∀ (now : Nat) (clients : List (String × Udp.UDPClient)) (k : String)
          (c : Udp.UDPClient),
        (k, c) ∈ Udp.cleanupInactiveClients now clients ↔
          (k, c) ∈ clients ∧ now - c.lastSeen ≤ Udp.livenessWindow)
    ∧ (∀ (now : Nat) (k : String) (c : Udp.UDPClient)
          (clients : List (String × Udp.UDPClient)),
        (k, c) ∈ clients →
          (k, { c with lastSeen := now }) ∈ Udp.handlePing now k clients)
    ∧ (∀ (evs : List Udp.UdpEvent) (clients : List (String × Udp.UDPClient))
          (k : String) (c : Udp.UDPClient),
        (k, c) ∈ clients → Udp.coveredAt k c.lastSeen evs = true →
        ∃ c', (k, c') ∈ Udp.runEvents clients evs
          ∧ c'.userID = c.userID ∧ c'.addr = c.addr) :=
  ⟨rfl, rfl, fun now _ _ _ => mem_cleanup_iff now,
   fun now _ _ _ h => mem_handlePing_self now h,
   fun evs clients k c hm hcov => covered_client_survives evs clients k c hm hcov⟩

/-- Claim C6 witness: a concrete endpoint within the window survives a
sweep, and an endpoint registered at time 0 that pings at time 250
survives a sweep at time 500. -/
theorem c6_liveness_witness :
    (("a", (⟨"a", "u1", 100⟩ : Udp.UDPClient)) ∈
        Udp.cleanupInactiveClients 400 [("a", ⟨"a", "u1", 100⟩)])
    ∧ ∃ c', ("a", c') ∈ Udp.runEvents [("a", ⟨"a", "u1", 0⟩)]
          [Udp.UdpEvent.ping "a" 250, Udp.UdpEvent.sweep 500]
        ∧ c'.userID = "u1" ∧ c'.addr = "a" := by
  refine ⟨(c6_liveness_sweep.2.2.1 400 [("a", ⟨"a", "u1", 100⟩)] "a"
      ⟨"a", "u1", 100⟩).mpr ⟨by decide, by decide⟩, ?_⟩
  obtain ⟨c', hmem, hu, ha⟩ := c6_liveness_sweep.2.2.2.2
    [Udp.UdpEvent.ping "a" 250, Udp.UdpEvent.sweep 500]
    [("a", ⟨"a", "u1", 0⟩)] "a" ⟨"a", "u1", 0⟩ (by decide) (by decide)
  exact ⟨c', hmem, hu, ha⟩

section WsLemmas

lemma setRoom_rooms_self (hub : Ws.Hub) (name : String) (r : Ws.Room) :
    (Ws.setRoom hub name r).rooms name = some r := by
  simp [Ws.setRoom]

lemma deleteRoom_rooms_self (hub : Ws.Hub) (name : String) :
    (Ws.deleteRoom hub name).rooms name = none := by
  simp [Ws.deleteRoom]

lemma broadcastToRoom_rooms_self {hub : Ws.Hub} {name : String} {room : Ws.Room}
    (msg : Ws.Message) (h : hub.rooms name = some room) :
    (Ws.broadcastToRoom hub name msg).rooms name
      = some { room with
          history := Ws.pushHistory room.history msg,
          clients := room.clients.filterMap
            (fun c => Ws.tryEnqueue c (Ws.Frame.chat msg)) } := by
  rw [Ws.broadcastToRoom, h]
  exact setRoom_rooms_self _ _ _

lemma removeClientFromRoom_last {hub : Ws.Hub} {c : Ws.Client} {room : Ws.Room}
    (now : String) (h : hub.rooms c.room = some room) (hcl : room.clients = [c]) :
    (Ws.removeClientFromRoom hub c now).rooms c.room = none := by
  rw [Ws.removeClientFromRoom, h]
  have hf : room.clients.filter (fun x => x.cid ≠ c.cid) = [] := by
    simp [hcl]
  simp only [hf, List.length_nil, if_pos rfl]
  exact deleteRoom_rooms_self _ _

lemma addClientToRoom_fresh {hub : Ws.Hub} {c : Ws.Client} (now : String)
    (h : hub.rooms c.room = none) :
    (Ws.addClientToRoom hub c now).rooms c.room
      = some ⟨c.room,
          [c].filterMap
            (fun x => Ws.tryEnqueue x (Ws.Frame.chat (Ws.systemJoinMsg c now))),
          [Ws.systemJoinMsg c now]⟩ := by
  rw [Ws.addClientToRoom, h]
  have h1 : (Ws.sendHistoryToClient
      { Ws.emptyRoom c.room with clients := (Ws.emptyRoom c.room).clients ++ [c] }
      c.cid) = ⟨c.room, [c], []⟩ := by
    simp [Ws.sendHistoryToClient, Ws.emptyRoom]
  simp only [h1]
  rw [broadcastToRoom_rooms_self (Ws.systemJoinMsg c now)
    (setRoom_rooms_self hub c.room ⟨c.room, [c], []⟩)]
  simp [Ws.pushHistory]

end WsLemmas

/-- Claim C7: joining a topic that does not exist creates it; when the
last member leaves, the topic is deleted from the hub; and a topic
re-created under the same name afterwards starts with empty history —
after the re-creating join its history holds nothing but that join's own
system notice. -/
theorem c7_topic_lifecycle (hub : Ws.Hub) (c c2 : Ws.Client)
    (now now2 : String) (room : Ws.Room) :
    (hub.rooms c.room = none →
      ((Ws.addClientToRoom hub c now).rooms c.room).isSome = true)
    ∧ (hub.rooms c.room = some room → room.clients = [c] →
      (Ws.removeClientFromRoom hub c now).rooms c.room = none)
    ∧ (hub.rooms c.room = some room → room.clients = [c] → c2.room = c.room →
      ∃ room', (Ws.addClientToRoom (Ws.removeClientFromRoom hub c now) c2 now2).rooms
            c2.room = some room'
        ∧ room'.history = [Ws.systemJoinMsg c2 now2]) := by
  refine ⟨?_, ?_, ?_⟩
  · intro h
    rw [addClientToRoom_fresh now h]
    rfl
  · intro h hcl
    exact removeClientFromRoom_last now h hcl
  · intro h hcl hc2
    have hdel : (Ws.removeClientFromRoom hub c now).rooms c2.room = none := by
      rw [hc2]; exact removeClientFromRoom_last now h hcl
    rw [addClientToRoom_fresh now2 hdel]
    exact ⟨_, rfl, rfl⟩

/-- Claim C7 witness: on a concrete hub, a room is created by a join,
deleted when its only member leaves, and a re-created room's history is
exactly the fresh join notice. -/
theorem c7_topic_witness :
    (((Ws.addClientToRoom ⟨fun _ => none⟩ ⟨1, "alice", "general", []⟩
        "10:00:00").rooms "general").isSome = true)
    ∧ ((Ws.removeClientFromRoom
          ⟨fun n => if n = "general" then
              some ⟨"general", [⟨1, "alice", "general", []⟩],
                [⟨"chat", "general", "alice", "old", "09:00:00"⟩]⟩
            else none⟩
          ⟨1, "alice", "general", []⟩ "10:05:00").rooms "general" = none)
    ∧ ∃ room', (Ws.addClientToRoom
          (Ws.removeClientFromRoom
            ⟨fun n => if n = "general" then
                some ⟨"general", [⟨1, "alice", "general", []⟩],
                  [⟨"chat", "general", "alice", "old", "09:00:00"⟩]⟩
              else none⟩
            ⟨1, "alice", "general", []⟩ "10:05:00")
          ⟨2, "bob", "general", []⟩ "10:06:00").rooms "general" = some room'
        ∧ room'.history = [Ws.systemJoinMsg ⟨2, "bob", "general", []⟩ "10:06:00"] := by
  have h := c7_topic_lifecycle
    ⟨fun n => if n = "general" then
        some ⟨"general", [⟨1, "alice", "general", []⟩],
          [⟨"chat", "general", "alice", "old", "09:00:00"⟩]⟩
      else none⟩
    ⟨1, "alice", "general", []⟩ ⟨2, "bob", "general", []⟩ "10:05:00" "10:06:00"
    ⟨"general", [⟨1, "alice", "general", []⟩],
      [⟨"chat", "general", "alice", "old", "09:00:00"⟩]⟩
  have h0 := c7_topic_lifecycle (⟨fun _ => none⟩ : Ws.Hub)
    ⟨1, "alice", "general", []⟩ ⟨1, "alice", "general", []⟩ "10:00:00" "10:00:00"
    ⟨"general", [], []⟩
  exact ⟨h0.1 rfl, h.2.1 rfl rfl, h.2.2 rfl rfl rfl⟩

section HistoryLemmas

lemma lastN_of_le {l : List Ws.Message} (h : l.length ≤ 100) :
    Ws.lastN 100 l = l := by
  simp [Ws.lastN, Nat.sub_eq_zero_of_le h]

lemma pushHistory_eq_lastN (h : List Ws.Message) (m : Ws.Message)
    (hh : h.length ≤ 100) :
    Ws.pushHistory h m = Ws.lastN 100 (h ++ [m]) := by
  rw [Ws.pushHistory, Ws.lastN]
  by_cases hc : (h ++ [m]).length > 100
  · rw [if_pos hc]
    have h100 : h.length = 100 := by
      simp only [List.length_append, List.length_singleton] at hc
      omega
    have hlen : (h ++ [m]).length - 100 = 1 := by
      simp [List.length_append, h100]
    rw [hlen, List.drop_one]
  · rw [if_neg hc]
    have : (h ++ [m]).length - 100 = 0 := by omega
    rw [this, List.drop_zero]

lemma pushHistory_length_le (h : List Ws.Message) (m : Ws.Message)
    (hh : h.length ≤ 100) : (Ws.pushHistory h m).length ≤ 100 := by
  rw [Ws.pushHistory]
  by_cases hc : (h ++ [m]).length > 100
  · rw [if_pos hc]
    simp only [List.length_tail, List.length_append, List.length_singleton]
    omega
  · rw [if_neg hc]
    omega

lemma lastN_lastN_append (z ms : List Ws.Message) :
    Ws.lastN 100 (Ws.lastN 100 z ++ ms) = Ws.lastN 100 (z ++ ms) := by
  by_cases hz : z.length ≤ 100
  · rw [lastN_of_le hz]
  · rw [Ws.lastN, Ws.lastN, Ws.lastN,
      ← List.drop_append_of_le_length (by omega : z.length - 100 ≤ z.length),
      List.drop_drop]
    simp only [List.length_append, List.length_drop]
    have he : ∀ a b : Nat, a = b →
        List.drop a (z ++ ms) = List.drop b (z ++ ms) := fun a b hab => by rw [hab]
    exact he _ _ (by omega)

lemma foldl_pushHistory (msgs : List Ws.Message) :
    ∀ h : List Ws.Message, h.length ≤ 100 →
      msgs.foldl Ws.pushHistory h = Ws.lastN 100 (h ++ msgs) := by
  induction msgs with
  | nil =>
    intro h hh
    simpa using (lastN_of_le hh).symm
  | cons m ms ih =>
    intro h hh
    rw [List.foldl_cons,
      ih (Ws.pushHistory h m) (pushHistory_length_le h m hh),
      pushHistory_eq_lastN h m hh, lastN_lastN_append]
    congr 1
    simp

lemma broadcastMany_rooms (msgs : List Ws.Message) :
    ∀ (hub : Ws.Hub) (name : String) (room : Ws.Room),
      hub.rooms name = some room →
      ∃ clients', (Ws.broadcastMany hub name msgs).rooms name
        = some ⟨room.name, clients', msgs.foldl Ws.pushHistory room.history⟩ := by
  induction msgs with
  | nil =>
    intro hub name room h
    exact ⟨room.clients, by simpa [Ws.broadcastMany] using h⟩
  | cons m ms ih =>
    intro hub name room h
    obtain ⟨clients', hc⟩ := ih (Ws.broadcastToRoom hub name m) name
      { room with
        history := Ws.pushHistory room.history m,
        clients := room.clients.filterMap
          (fun c => Ws.tryEnqueue c (Ws.Frame.chat m)) }
      (broadcastToRoom_rooms_self m h)
    exact ⟨clients', hc⟩

end HistoryLemmas

/-- Claim C8: broadcasting any sequence of messages to an existing topic
whose history respects the 100-message bound leaves the room present with
history equal to the most recent 100 of (old history ++ messages), oldest
first, and of length min 100 (total) — so the bound is preserved by every
broadcast, and after more than 100 messages exactly the most recent 100
remain. -/
theorem c8_history_bound (hub : Ws.Hub) (name : String) (room : Ws.Room)
    (msgs : List Ws.Message) (h : hub.rooms name = some room)
    (hlen : room.history.length ≤ 100) :
    ∃ room', (Ws.broadcastMany hub name msgs).rooms name = some room'
      ∧ room'.history = Ws.lastN 100 (room.history ++ msgs)
      ∧ room'.history.length = min 100 (room.history.length + msgs.length) := by
  obtain ⟨clients', hc⟩ := broadcastMany_rooms msgs hub name room h
  refine ⟨_, hc, ?_, ?_⟩
  · exact foldl_pushHistory msgs room.history hlen
  · rw [foldl_pushHistory msgs room.history hlen, Ws.lastN]
    simp only [List.length_drop, List.length_append]
    omega

/-- Claim C8 witness: broadcasting two messages to a room with one retained
message leaves all three in order (within the bound). -/
theorem c8_history_witness :
    ∃ room', (Ws.broadcastMany
        ⟨fun n => if n = "general" then
            some ⟨"general", [], [⟨"chat", "general", "a", "m0", "10:00:00"⟩]⟩
          else none⟩
        "general"
        [⟨"chat", "general", "a", "m1", "10:01:00"⟩,
         ⟨"chat", "general", "a", "m2", "10:02:00"⟩]).rooms "general" = some room'
      ∧ room'.history = Ws.lastN 100
          ([⟨"chat", "general", "a", "m0", "10:00:00"⟩] ++
            [⟨"chat", "general", "a", "m1", "10:01:00"⟩,
             ⟨"chat", "general", "a", "m2", "10:02:00"⟩])
      ∧ room'.history.length = min 100 (1 + 2) := by
  exact c8_history_bound
    ⟨fun n => if n = "general" then
        some ⟨"general", [], [⟨"chat", "general", "a", "m0", "10:00:00"⟩]⟩
      else none⟩
    "general" ⟨"general", [], [⟨"chat", "general", "a", "m0", "10:00:00"⟩]⟩
    [⟨"chat", "general", "a", "m1", "10:01:00"⟩,
     ⟨"chat", "general", "a", "m2", "10:02:00"⟩]
    rfl (by decide)

/-- Claim C9: the chat frame broadcast by readPump carries the member's
join-time username and room, type "chat" and the server clock; only the
text field survives from the client payload, so two inbound payloads with
the same text — differing arbitrarily in their username, room, type and
time fields — produce identical broadcasts. -/
theorem c9_server_side_stamping (hub : Ws.Hub) (c : Ws.Client) (now : String)
    (m1 m2 : Ws.Message) (h : m1.text = m2.text) :
    Ws.readPumpStep hub c now m1 = Ws.readPumpStep hub c now m2
    ∧ Ws.stampMessage c now m1 = ⟨"chat", c.room, c.username, m1.text, now⟩ := by
  have hs : Ws.stampMessage c now m1 = Ws.stampMessage c now m2 := by
    simp [Ws.stampMessage, h]
  exact ⟨by simp only [Ws.readPumpStep, hs], rfl⟩

/-- Claim C9 witness: a payload with forged username, room, type and time
broadcasts identically to a plain one, and the stamped frame carries the
member's own identity. -/
theorem c9_stamping_witness :
    Ws.readPumpStep ⟨fun _ => none⟩ ⟨1, "alice", "general", []⟩ "12:00:00"
        ⟨"system", "other", "admin", "hi", "00:00:00"⟩
      = Ws.readPumpStep ⟨fun _ => none⟩ ⟨1, "alice", "general", []⟩ "12:00:00"
        ⟨"", "", "", "hi", ""⟩
    ∧ Ws.stampMessage ⟨1, "alice", "general", []⟩ "12:00:00"
        ⟨"system", "other", "admin", "hi", "00:00:00"⟩
      = ⟨"chat", "general", "alice", "hi", "12:00:00"⟩ := by
  exact c9_server_side_stamping ⟨fun _ => none⟩ ⟨1, "alice", "general", []⟩
    "12:00:00" ⟨"system", "other", "admin", "hi", "00:00:00"⟩
    ⟨"", "", "", "hi", ""⟩ rfl

section AuthLemmas

lemma decodeAuthField_foldl_skip (fields : List (String × JValue)) :
    ∀ cur : String, (∀ p ∈ fields, Tcp.matchesUserIdKey p.1 = false) →
      fields.foldl Tcp.decodeAuthField (some cur) = some cur := by
  induction fields with
  | nil => intro cur _; rfl
  | cons p ps ih =>
    intro cur hnp
    rw [List.foldl_cons,
      show Tcp.decodeAuthField (some cur) p = some cur from by
        simp [Tcp.decodeAuthField, hnp p (List.mem_cons_self p ps)]]
    exact ih cur fun q hq => hnp q (List.mem_cons_of_mem p hq)

end AuthLemmas

/-- Claim C10 counterexample: the frame `{"user_id":5}` is read
successfully and is valid JSON, yet the handshake closes the connection
without registering (the Go unmarshal into the auth struct fails on the
numeric user_id) — refuting "closed if and only if reading the line fails
or the bytes are not valid JSON". -/
theorem c10_valid_json_closed_cex :
    (some (some (JValue.obj [("user_id", JValue.num 5)])) : Option (Option JValue))
        ≠ none
    ∧ (some (some (JValue.obj [("user_id", JValue.num 5)])) : Option (Option JValue))
        ≠ some none
    ∧ (Tcp.handleConnectionHandshake
        (some (some (JValue.obj [("user_id", JValue.num 5)]))) 7).isClosed = true :=
  ⟨by simp, by simp, rfl⟩

/-- Claim C10 (amended): the handshake closes without registering exactly
when the read fails, the bytes are not valid JSON, or the JSON value does
not unmarshal into the auth struct (a top-level value other than an
object or null, or a key matching user_id — exactly or case-insensitively
— whose value is neither a string nor null); a frame that decodes but has
no key matching user_id (or carries an empty or null one) is registered
as an endpoint with empty-string account id and gets the confirmation
frame. -/
theorem c10_handshake_classification (input : Option (Option JValue)) (t : Nat)
    (v : JValue) (uid : String) (fields : List (String × JValue)) :
    ((Tcp.handleConnectionHandshake input t).isClosed = true ↔
        input = none ∨ input = some none ∨
          ∃ w, input = some (some w) ∧ Tcp.decodeAuthUserID w = none)
    ∧ (Tcp.decodeAuthUserID v = some uid →
        Tcp.handleConnectionHandshake (some (some v)) t
          = Tcp.HandshakeResult.registered (uid ++ "_" ++ toString t) uid
              Tcp.connectConfirmation)
    ∧ ((∀ p ∈ fields, Tcp.matchesUserIdKey p.1 = false) →
        Tcp.decodeAuthUserID (JValue.obj fields) = some "")
    ∧ Tcp.decodeAuthUserID (JValue.obj [("user_id", JValue.str "")]) = some "" := by
  refine ⟨?_, ?_, ?_, rfl⟩
  · cases input with
    | none => simp [Tcp.handleConnectionHandshake, Tcp.HandshakeResult.isClosed]
    | some o =>
      cases o with
      | none => simp [Tcp.handleConnectionHandshake, Tcp.HandshakeResult.isClosed]
      | some w =>
        cases hd : Tcp.decodeAuthUserID w with
        | none =>
          simp [Tcp.handleConnectionHandshake, hd, Tcp.HandshakeResult.isClosed]
        | some u =>
          simp [Tcp.handleConnectionHandshake, hd, Tcp.HandshakeResult.isClosed]
  · intro hv
    rw [Tcp.handleConnectionHandshake, hv]
  · intro hnp
    rw [Tcp.decodeAuthUserID]
    exact decodeAuthField_foldl_skip fields "" hnp

/-- Claim C10 witness: a valid JSON object with no user_id field registers
with empty-string account id, receiving the confirmation frame. -/
theorem c10_handshake_witness :
    Tcp.handleConnectionHandshake
        (some (some (JValue.obj [("extra", JValue.str "x")]))) 3
      = Tcp.HandshakeResult.registered ("" ++ "_" ++ toString 3) ""
          Tcp.connectConfirmation := by
  have h := c10_handshake_classification
    (some (some (JValue.obj [("extra", JValue.str "x")]))) 3
    (JValue.obj [("extra", JValue.str "x")]) "" [("extra", JValue.str "x")]
  refine h.2.1 (h.2.2.1 ?_)
  intro p hp
  rw [List.mem_singleton.mp hp]
  decide
